import Mathlib

/-!
Shallow embedding of the Go configuration library (packages config and
config1 of Onemanwolf/Go.generic.config).

The embedding covers the two components of the system:

* the Source Loader, function loadEnvFile of src/config1/config.go, which
  scans the lines of a .env style file and seeds process visible
  environment variables without overwriting values that are already
  visible; and

* the Binder, function parseConfig of src/config1/config.go and
  src/config/config.go (the two copies are line for line the same
  algorithm), which populates the fields of a destination structure from
  environment variables according to their env tags.

Modelling conventions:

* The process visible environment is a total function from keys to values,
  exactly the view that os.Getenv provides in Go: an unset variable and a
  variable set to the empty string are both visible as the empty string.
  os.Setenv is modelled by pointwise update, and its failure condition on
  Linux (empty key, a key containing an equals sign or a NUL byte, or a
  value containing a NUL byte) is modelled by setenvValid.

* File input is modelled as the list of lines produced by bufio.Scanner.

* strings.TrimSpace is modelled by goTrim over the Latin-1 white space
  characters recognised by unicode.IsSpace; strings.SplitN with separator
  "=" and count 2 is modelled by splitFirstEq; strings.HasPrefix by
  goStartsWith.

* strconv.Atoi (that is, strconv.ParseInt with base 10 and the 64 bit
  platform int size) is modelled by goAtoi, including the early range
  error return of ParseUint at the overflow cutoff; strconv.ParseBool by
  goParseBool with its exact literal set.

* strconv.ParseFloat is an external standard library routine producing an
  IEEE-754 binary64 value; binary64 arithmetic is outside the embedding,
  so the float parser is an injected parameter of the Binder, returning
  the bit pattern of the parsed value as a natural number, with the same
  error taxonomy (syntax or range) as the integer parsers.
-/

/-- One of the two error kinds carried by strconv.NumError: invalid syntax
or value out of range. -/
inductive NumError : Type
  | invalidSyntax : NumError
  | outOfRange : NumError
  deriving DecidableEq, Repr

instance {ε α : Type _} [DecidableEq ε] [DecidableEq α] : DecidableEq (Except ε α) :=
  fun x y =>
  match x, y with
  | Except.ok a, Except.ok b =>
    if h : a = b then Decidable.isTrue (congrArg Except.ok h)
    else Decidable.isFalse (fun hc => h (Except.ok.inj hc))
  | Except.ok _, Except.error _ => Decidable.isFalse (fun hc => Except.noConfusion hc)
  | Except.error _, Except.ok _ => Decidable.isFalse (fun hc => Except.noConfusion hc)
  | Except.error a, Except.error b =>
    if h : a = b then Decidable.isTrue (congrArg Except.error h)
    else Decidable.isFalse (fun hc => h (Except.error.inj hc))

/-- The process visible environment, as os.Getenv exposes it: a total map
from variable names to visible values, where the empty string means that
no value is visible for the key. -/
abbrev EnvState : Type := String → String

/-- Pointwise update of the visible environment, modelling os.Setenv. -/
def setenv (env : EnvState) (key value : String) : EnvState :=
  fun k => if k = key then value else env k

/-- The white space predicate of unicode.IsSpace restricted to Latin-1,
used by strings.TrimSpace. -/
def goIsSpace (c : Char) : Bool :=
  c == ' ' || c == '\t' || c == '\n' || c == Char.ofNat 11 ||
    c == Char.ofNat 12 || c == '\r' || c == Char.ofNat 0x85 || c == Char.ofNat 0xA0

/-- Model of strings.TrimSpace: drop white space from both ends. -/
def goTrim (s : String) : String :=
  String.mk (((s.data.dropWhile goIsSpace).reverse.dropWhile goIsSpace).reverse)

/-- Model of strings.HasPrefix. -/
def goStartsWith (s pre : String) : Bool :=
  pre.data.isPrefixOf s.data

/-- Model of strings.SplitN with separator "=" and count 2, reporting only
whether the line has two parts: none when the line contains no equals sign
(SplitN returns a single part and the loader skips the line), otherwise
the text before the first equals sign and the text after it. -/
def splitFirstEq (s : String) : Option (String × String) :=
  if s.data.contains '=' then
    some (String.mk (s.data.takeWhile (fun c => c != '=')),
          String.mk ((s.data.dropWhile (fun c => c != '=')).tail))
  else none

/-- The success condition of os.Setenv on Linux: the key is non empty and
free of equals signs and NUL bytes, and the value is free of NUL bytes. -/
def setenvValid (key value : String) : Bool :=
  key != "" && !(key.data.contains '=') && !(key.data.contains (Char.ofNat 0)) &&
    !(value.data.contains (Char.ofNat 0))

/-- The error returned by loadEnvFile when os.Setenv fails for a key. -/
inductive LoadError : Type
  | setenvFailed (key : String) : LoadError
  deriving DecidableEq, Repr

/-- Model of loadEnvFile of src/config1/config.go, applied to the list of
lines scanned from the file. Each line is trimmed; empty lines and comment
lines are skipped; the line is split at the first equals sign and lines
without one are skipped; key and value are trimmed; the key is set only
when no value is visible for it, and a failing set aborts the scan with an
error while keeping the variables already set. -/
def loadEnvFile (env : EnvState) : List String → EnvState × Option LoadError
  | [] => (env, none)
  | l :: ls =>
    if goTrim l = "" ∨ goStartsWith (goTrim l) "#" = true then
      loadEnvFile env ls
    else
      match splitFirstEq (goTrim l) with
      | none => loadEnvFile env ls
      | some (p, q) =>
        if env (goTrim p) = "" then
          if setenvValid (goTrim p) (goTrim q) = true then
            loadEnvFile (setenv env (goTrim p) (goTrim q)) ls
          else (env, some (LoadError.setenvFailed (goTrim p)))
        else loadEnvFile env ls

/-- The digit accumulation loop of strconv.ParseUint for base 10 and bit
size 64: a character outside the decimal digits is a syntax error; when
the accumulator reaches the cutoff (maxUint64 div 10 plus 1) or the next
value would exceed maxUint64, the loop stops at once with a range error. -/
def parseDecLoop : Nat → List Char → Except NumError Nat
  | n, [] => Except.ok n
  | n, c :: cs =>
    if c < '0' ∨ '9' < c then Except.error NumError.invalidSyntax
    else if 1844674407370955162 ≤ n then Except.error NumError.outOfRange
    else if 2 ^ 64 - 1 < n * 10 + (c.toNat - 48) then Except.error NumError.outOfRange
    else parseDecLoop (n * 10 + (c.toNat - 48)) cs

/-- The body of strconv.ParseInt after the sign has been stripped: an
empty digit string is a syntax error, and the unsigned magnitude must fit
the asymmetric signed 64 bit cutoffs. -/
def goAtoiCore (neg : Bool) (ds : List Char) : Except NumError Int :=
  if ds = [] then Except.error NumError.invalidSyntax
  else
    match parseDecLoop 0 ds with
    | Except.error e => Except.error e
    | Except.ok un =>
      if neg = false ∧ 2 ^ 63 ≤ un then Except.error NumError.outOfRange
      else if neg = true ∧ 2 ^ 63 < un then Except.error NumError.outOfRange
      else Except.ok (if neg then -(un : Int) else (un : Int))

/-- Model of strconv.Atoi, that is strconv.ParseInt with base 10 and the
64 bit platform int size: optional single leading sign, then decimal
digits. -/
def goAtoi (s : String) : Except NumError Int :=
  match s.data with
  | [] => Except.error NumError.invalidSyntax
  | c0 :: rest =>
    if c0 = '+' then goAtoiCore false rest
    else if c0 = '-' then goAtoiCore true rest
    else goAtoiCore false (c0 :: rest)

/-- Model of strconv.ParseBool: the exact literal switch of the Go
standard library. -/
def goParseBool (s : String) : Except NumError Bool :=
  if s = "1" ∨ s = "t" ∨ s = "T" ∨ s = "true" ∨ s = "TRUE" ∨ s = "True" then
    Except.ok true
  else if s = "0" ∨ s = "f" ∨ s = "F" ∨ s = "false" ∨ s = "FALSE" ∨ s = "False" then
    Except.ok false
  else Except.error NumError.invalidSyntax

/-- ASCII lower casing of one character, used to state case insensitive
comparison of literals. -/
def lowerChar (c : Char) : Char :=
  if 'A' ≤ c ∧ c ≤ 'Z' then Char.ofNat (c.toNat + 32) else c

/-- ASCII lower casing of a string, used to state case insensitive
comparison of literals. -/
def asciiLower (s : String) : String :=
  String.mk (s.data.map lowerChar)

/-- The value held by one destination field, tagged by its reflect kind.
A float64 value is carried as the bit pattern of the binary64 number that
the injected float parser produced. Kinds outside the switch of
parseConfig are carried as the printed kind name. -/
inductive GoValue : Type
  | str (s : String) : GoValue
  | int (n : Int) : GoValue
  | bool (b : Bool) : GoValue
  | float (bits : Nat) : GoValue
  | other (kindName : String) : GoValue
  deriving DecidableEq, Repr

/-- True when the value kind is handled by the conversion switch of
parseConfig. -/
def GoValue.isSupported : GoValue → Bool
  | GoValue.other _ => false
  | _ => true

/-- Static description of one destination field: its Go field name, its
env tag when present, and whether reflection can set it (exported). -/
structure FieldDesc : Type where
  name : String
  tag : Option String
  canSet : Bool
  deriving DecidableEq, Repr

/-- The error values that parseConfig can return, one constructor per
fmt.Errorf site, carrying the data interpolated into the message. -/
inductive GoError : Type
  | notStructPtr : GoError
  | cannotSet (fieldName : String) : GoError
  | invalidInt (key : String) (cause : NumError) : GoError
  | invalidBool (key : String) (cause : NumError) : GoError
  | invalidFloat (key : String) (cause : NumError) : GoError
  | unsupportedType (fieldName kindName : String) : GoError
  deriving DecidableEq, Repr

/-- The lookup key named in a conversion error message, when the error is
a conversion error. -/
def GoError.keyOf : GoError → Option String
  | GoError.invalidInt k _ => some k
  | GoError.invalidBool k _ => some k
  | GoError.invalidFloat k _ => some k
  | _ => none

/-- The underlying parse failure wrapped in a conversion error message,
when the error is a conversion error. -/
def GoError.causeOf : GoError → Option NumError
  | GoError.invalidInt _ c => some c
  | GoError.invalidBool _ c => some c
  | GoError.invalidFloat _ c => some c
  | _ => none

/-- The conversion switch of parseConfig on the reflect kind of the field,
given the present raw value s: strings are assigned verbatim, integers go
through strconv.Atoi, booleans through strconv.ParseBool, float64 fields
through the injected strconv.ParseFloat oracle pf, and any other kind is
an unsupported type error. -/
def convertField (pf : String → Except NumError Nat) (key fieldName : String)
    (v : GoValue) (s : String) : Except GoError GoValue :=
  match v with
  | GoValue.str _ => Except.ok (GoValue.str s)
  | GoValue.int _ =>
    match goAtoi s with
    | Except.ok n => Except.ok (GoValue.int n)
    | Except.error c => Except.error (GoError.invalidInt key c)
  | GoValue.bool _ =>
    match goParseBool s with
    | Except.ok b => Except.ok (GoValue.bool b)
    | Except.error c => Except.error (GoError.invalidBool key c)
  | GoValue.float _ =>
    match pf s with
    | Except.ok bits => Except.ok (GoValue.float bits)
    | Except.error c => Except.error (GoError.invalidFloat key c)
  | GoValue.other kindName => Except.error (GoError.unsupportedType fieldName kindName)

/-- The body of the field loop of parseConfig for one field: fields
without an env tag are skipped, an absent or empty looked up value leaves
the field untouched, an unsettable field is an error, and otherwise the
conversion switch runs on the present value. -/
def processField (lookup : String → String) (pf : String → Except NumError Nat)
    (f : FieldDesc) (v : GoValue) : Except GoError GoValue :=
  match f.tag with
  | none => Except.ok v
  | some key =>
    if lookup key = "" then Except.ok v
    else if f.canSet = false then Except.error (GoError.cannotSet f.name)
    else convertField pf key f.name v (lookup key)

/-- The field loop of parseConfig over the declared fields in order: on
success the field holds its new value and the loop continues; on error the
loop stops at once, the erroring field and all later fields keep their
prior values, and the error is returned beside the partially populated
field list. -/
def parseFields (lookup : String → String) (pf : String → Except NumError Nat) :
    List (FieldDesc × GoValue) → List (FieldDesc × GoValue) × Option GoError
  | [] => ([], none)
  | (f, v) :: rest =>
    match processField lookup pf f v with
    | Except.ok w =>
      ((f, w) :: (parseFields lookup pf rest).1, (parseFields lookup pf rest).2)
    | Except.error e => ((f, v) :: rest, some e)

/-- Model of parseConfig: the destination shape check of reflect (the
argument must be a pointer whose element is a struct) followed by the
field loop. The destination is its ordered field list together with the
two shape facts that reflect inspects. -/
def parseConfig (isPtr elemIsStruct : Bool) (fields : List (FieldDesc × GoValue))
    (lookup : String → String) (pf : String → Except NumError Nat) :
    List (FieldDesc × GoValue) × Option GoError :=
  if isPtr = false ∨ elemIsStruct = false then (fields, some GoError.notStructPtr)
  else parseFields lookup pf fields

/-- The Config struct of src/config1/config.go as a field descriptor list,
paired with its zero values. -/
def configFields : List (FieldDesc × GoValue) :=
  [(FieldDesc.mk "MongoDBHost" (some "MONGO_HOST") true, GoValue.str ""),
   (FieldDesc.mk "MongoDBPort" (some "MONGO_PORT") true, GoValue.int 0),
   (FieldDesc.mk "MongoDBUser" (some "MONGO_USER") true, GoValue.str ""),
   (FieldDesc.mk "MongoDBPassword" (some "MONGO_PASSWORD") true, GoValue.str ""),
   (FieldDesc.mk "DebugMode" (some "DEBUG_MODE") true, GoValue.bool false)]

theorem setenv_self (env : EnvState) (a b : String) : setenv env a b a = b := by
  simp [setenv]

theorem setenv_other (env : EnvState) (a b k : String) (h : k ≠ a) :
    setenv env a b k = env k := by
  simp [setenv, h]

theorem setenv_empty_self (env : EnvState) (a : String) (h : env a = "") :
    setenv env a "" = env := by
  funext k
  by_cases hk : k = a
  · rw [hk, setenv_self, h]
  · rw [setenv_other env a "" k hk]

theorem loadEnvFile_skip (env : EnvState) (l : String) (ls : List String)
    (h : goTrim l = "" ∨ goStartsWith (goTrim l) "#" = true ∨
      splitFirstEq (goTrim l) = none) :
    loadEnvFile env (l :: ls) = loadEnvFile env ls := by
  simp only [loadEnvFile]
  rcases h with h | h | h
  · rw [if_pos (Or.inl h)]
  · rw [if_pos (Or.inr h)]
  · by_cases h1 : goTrim l = "" ∨ goStartsWith (goTrim l) "#" = true
    · rw [if_pos h1]
    · rw [if_neg h1, h]

theorem loadEnvFile_cons_set (env : EnvState) (l : String) (ls : List String)
    (p q : String)
    (h1 : ¬(goTrim l = "" ∨ goStartsWith (goTrim l) "#" = true))
    (hsp : splitFirstEq (goTrim l) = some (p, q))
    (he : env (goTrim p) = "")
    (hv : setenvValid (goTrim p) (goTrim q) = true) :
    loadEnvFile env (l :: ls) = loadEnvFile (setenv env (goTrim p) (goTrim q)) ls := by
  simp only [loadEnvFile]
  rw [if_neg h1, hsp]
  simp only [if_pos he, if_pos hv]

theorem loadEnvFile_cons_fail (env : EnvState) (l : String) (ls : List String)
    (p q : String)
    (h1 : ¬(goTrim l = "" ∨ goStartsWith (goTrim l) "#" = true))
    (hsp : splitFirstEq (goTrim l) = some (p, q))
    (he : env (goTrim p) = "")
    (hv : setenvValid (goTrim p) (goTrim q) = false) :
    loadEnvFile env (l :: ls) = (env, some (LoadError.setenvFailed (goTrim p))) := by
  simp only [loadEnvFile]
  rw [if_neg h1, hsp]
  simp only [if_pos he, hv]
  simp

theorem loadEnvFile_cons_keep (env : EnvState) (l : String) (ls : List String)
    (p q : String)
    (h1 : ¬(goTrim l = "" ∨ goStartsWith (goTrim l) "#" = true))
    (hsp : splitFirstEq (goTrim l) = some (p, q))
    (he : env (goTrim p) ≠ "") :
    loadEnvFile env (l :: ls) = loadEnvFile env ls := by
  simp only [loadEnvFile]
  rw [if_neg h1, hsp]
  simp only [if_neg he]

theorem loadEnvFile_preserve (ls : List String) :
    ∀ (env : EnvState) (k : String), env k ≠ "" →
      (loadEnvFile env ls).1 k = env k := by
  induction ls with
  | nil => intro env k _; rfl
  | cons l ls ih =>
    intro env k h
    by_cases h1 : goTrim l = "" ∨ goStartsWith (goTrim l) "#" = true
    · rw [loadEnvFile_skip env l ls (h1.imp id Or.inl)]
      exact ih env k h
    · cases hsp : splitFirstEq (goTrim l) with
      | none =>
        rw [loadEnvFile_skip env l ls (Or.inr (Or.inr hsp))]
        exact ih env k h
      | some pq =>
        obtain ⟨p, q⟩ := pq
        by_cases he : env (goTrim p) = ""
        · by_cases hv : setenvValid (goTrim p) (goTrim q) = true
          · rw [loadEnvFile_cons_set env l ls p q h1 hsp he hv]
            have hk : k ≠ goTrim p := by
              intro hc; rw [hc] at h; exact h he
            have h2 : setenv env (goTrim p) (goTrim q) k ≠ "" := by
              rw [setenv_other env _ _ k hk]; exact h
            rw [ih _ k h2, setenv_other env _ _ k hk]
          · rw [loadEnvFile_cons_fail env l ls p q h1 hsp he
              (Bool.not_eq_true _ ▸ hv)]
        · rw [loadEnvFile_cons_keep env l ls p q h1 hsp he]
          exact ih env k h

theorem loadEnvFile_append (pre : List String) :
    ∀ (env : EnvState) (rest : List String), (loadEnvFile env pre).2 = none →
      loadEnvFile env (pre ++ rest) = loadEnvFile (loadEnvFile env pre).1 rest := by
  induction pre with
  | nil => intro env rest _; rfl
  | cons l pre ih =>
    intro env rest h
    by_cases h1 : goTrim l = "" ∨ goStartsWith (goTrim l) "#" = true
    · rw [loadEnvFile_skip env l pre (h1.imp id Or.inl)] at h
      rw [List.cons_append, loadEnvFile_skip env l (pre ++ rest) (h1.imp id Or.inl),
        loadEnvFile_skip env l pre (h1.imp id Or.inl)]
      exact ih env rest h
    · cases hsp : splitFirstEq (goTrim l) with
      | none =>
        rw [loadEnvFile_skip env l pre (Or.inr (Or.inr hsp))] at h
        rw [List.cons_append, loadEnvFile_skip env l (pre ++ rest) (Or.inr (Or.inr hsp)),
          loadEnvFile_skip env l pre (Or.inr (Or.inr hsp))]
        exact ih env rest h
      | some pq =>
        obtain ⟨p, q⟩ := pq
        by_cases he : env (goTrim p) = ""
        · by_cases hv : setenvValid (goTrim p) (goTrim q) = true
          · rw [loadEnvFile_cons_set env l pre p q h1 hsp he hv] at h
            rw [List.cons_append, loadEnvFile_cons_set env l (pre ++ rest) p q h1 hsp he hv,
              loadEnvFile_cons_set env l pre p q h1 hsp he hv]
            exact ih _ rest h
          · rw [loadEnvFile_cons_fail env l pre p q h1 hsp he
              (Bool.not_eq_true _ ▸ hv)] at h
            exact absurd h (by simp)
        · rw [loadEnvFile_cons_keep env l pre p q h1 hsp he] at h
          rw [List.cons_append, loadEnvFile_cons_keep env l (pre ++ rest) p q h1 hsp he,
            loadEnvFile_cons_keep env l pre p q h1 hsp he]
          exact ih env rest h

/-- C1: for every key that has a value already visible in the process
environment before seeding, running the Source Loader on any file leaves
the visible value of that key unchanged, regardless of what the file
assigns to that key, and whether or not the scan ends in an error. -/
theorem loadEnvFile_external_precedence (env : EnvState) (ls : List String)
    (k : String) (h : env k ≠ "") :
    (loadEnvFile env ls).1 k = env k :=
  loadEnvFile_preserve ls env k h

theorem loadEnvFile_external_precedence_witness :
    (loadEnvFile (fun _ => "false") ["DEBUG_MODE=true"]).1 "DEBUG_MODE" = "false" :=
  loadEnvFile_external_precedence (fun _ => "false") ["DEBUG_MODE=true"] "DEBUG_MODE"
    (by decide)

/-- C5: seeding is idempotent: running the Source Loader on the same list
of lines twice in succession produces exactly the state (and outcome) of
running it once, from any starting environment. -/
theorem loadEnvFile_idem (ls : List String) :
    ∀ env : EnvState, loadEnvFile (loadEnvFile env ls).1 ls = loadEnvFile env ls := by
  induction ls with
  | nil => intro env; rfl
  | cons l ls ih =>
    intro env
    by_cases h1 : goTrim l = "" ∨ goStartsWith (goTrim l) "#" = true
    · rw [loadEnvFile_skip env l ls (h1.imp id Or.inl)]
      rw [loadEnvFile_skip _ l ls (h1.imp id Or.inl)]
      exact ih env
    · cases hsp : splitFirstEq (goTrim l) with
      | none =>
        rw [loadEnvFile_skip env l ls (Or.inr (Or.inr hsp)),
          loadEnvFile_skip _ l ls (Or.inr (Or.inr hsp))]
        exact ih env
      | some pq =>
        obtain ⟨p, q⟩ := pq
        by_cases he : env (goTrim p) = ""
        · by_cases hv : setenvValid (goTrim p) (goTrim q) = true
          · rw [loadEnvFile_cons_set env l ls p q h1 hsp he hv]
            by_cases hq : goTrim q = ""
            · rw [hq, setenv_empty_self env (goTrim p) he]
              by_cases he1 : (loadEnvFile env ls).1 (goTrim p) = ""
              · rw [loadEnvFile_cons_set _ l ls p q h1 hsp he1 hv, hq,
                  setenv_empty_self _ (goTrim p) he1]
                exact ih env
              · rw [loadEnvFile_cons_keep _ l ls p q h1 hsp he1]
                exact ih env
            · have he2 :
                  (loadEnvFile (setenv env (goTrim p) (goTrim q)) ls).1 (goTrim p) ≠ "" := by
                rw [loadEnvFile_preserve ls _ _ (by rw [setenv_self]; exact hq)]
                rw [setenv_self]
                exact hq
              rw [loadEnvFile_cons_keep _ l ls p q h1 hsp he2]
              exact ih _
          · have hv2 := Bool.not_eq_true (setenvValid (goTrim p) (goTrim q)) ▸ hv
            rw [loadEnvFile_cons_fail env l ls p q h1 hsp he hv2]
            exact loadEnvFile_cons_fail env l ls p q h1 hsp he hv2
        · rw [loadEnvFile_cons_keep env l ls p q h1 hsp he]
          have he2 : (loadEnvFile env ls).1 (goTrim p) ≠ "" := by
            rw [loadEnvFile_preserve ls env _ he]
            exact he
          rw [loadEnvFile_cons_keep _ l ls p q h1 hsp he2]
          exact ih env

/-- C6: every file line that is blank after trimming, starts with a hash
after trimming, or contains no equals sign is skipped by the Source Loader
and leaves the visible variable state completely unchanged. -/
theorem loadEnvFile_skips_malformed (env : EnvState) (l : String) (ls : List String)
    (h : goTrim l = "" ∨ goStartsWith (goTrim l) "#" = true ∨
      splitFirstEq (goTrim l) = none) :
    loadEnvFile env (l :: ls) = loadEnvFile env ls :=
  loadEnvFile_skip env l ls h

theorem loadEnvFile_skips_malformed_witness :
    loadEnvFile (fun _ => "") ["# MONGO_HOST setting"] = loadEnvFile (fun _ => "") [] :=
  loadEnvFile_skips_malformed (fun _ => "") "# MONGO_HOST setting" [] (by decide)

/-- C9: the Source Loader decides precedence by value emptiness, not by
set-ness: for every key whose currently visible value is the empty string,
which in the os.Getenv view covers both an unset key and a key explicitly
set to the empty string, a file line assigning that key overwrites it with
the value of the file. -/
theorem loadEnvFile_overwrites_visible_empty (env : EnvState) (l p q : String)
    (h1 : ¬(goTrim l = "" ∨ goStartsWith (goTrim l) "#" = true))
    (hsp : splitFirstEq (goTrim l) = some (p, q))
    (he : env (goTrim p) = "")
    (hv : setenvValid (goTrim p) (goTrim q) = true) :
    (loadEnvFile env [l]).1 (goTrim p) = goTrim q := by
  rw [loadEnvFile_cons_set env l [] p q h1 hsp he hv]
  exact setenv_self env (goTrim p) (goTrim q)

theorem loadEnvFile_overwrites_visible_empty_witness :
    (loadEnvFile (fun _ => "") ["MONGO_HOST=db"]).1 "MONGO_HOST" = "db" := by
  have h := loadEnvFile_overwrites_visible_empty (fun _ => "") "MONGO_HOST=db"
    "MONGO_HOST" "db" (by decide) (by decide) (by decide) (by decide)
  have e1 : goTrim "MONGO_HOST" = "MONGO_HOST" := by decide
  have e2 : goTrim "db" = "db" := by decide
  rw [e1, e2] at h
  exact h

/-- C10: seeding is not atomic on failure: when a set fails partway
through the file, for example on a line whose key part trims to the empty
string, the Source Loader returns the error immediately, leaving the later
lines unprocessed, and the variables already set from the earlier lines
remain set, the final state being exactly the state reached after the
earlier lines. -/
theorem loadEnvFile_partial_on_error (env : EnvState) (pre : List String)
    (l : String) (ls : List String) (p q : String)
    (hpre : (loadEnvFile env pre).2 = none)
    (h1 : ¬(goTrim l = "" ∨ goStartsWith (goTrim l) "#" = true))
    (hsp : splitFirstEq (goTrim l) = some (p, q))
    (he : (loadEnvFile env pre).1 (goTrim p) = "")
    (hv : setenvValid (goTrim p) (goTrim q) = false) :
    loadEnvFile env (pre ++ l :: ls) =
      ((loadEnvFile env pre).1, some (LoadError.setenvFailed (goTrim p))) := by
  rw [loadEnvFile_append pre env (l :: ls) hpre]
  exact loadEnvFile_cons_fail _ l ls p q h1 hsp he hv

theorem loadEnvFile_partial_on_error_witness :
    loadEnvFile (fun _ => "") (["MONGO_HOST=db"] ++ "=oops" :: ["MONGO_PORT=1"]) =
      ((loadEnvFile (fun _ => "") ["MONGO_HOST=db"]).1,
        some (LoadError.setenvFailed (goTrim ""))) :=
  loadEnvFile_partial_on_error (fun _ => "") ["MONGO_HOST=db"] "=oops"
    ["MONGO_PORT=1"] "" "oops" (by decide) (by decide) (by decide) (by decide) (by decide)

theorem parseFields_cons_ok (lookup : String → String)
    (pf : String → Except NumError Nat) (f : FieldDesc) (v w : GoValue)
    (rest : List (FieldDesc × GoValue))
    (h : processField lookup pf f v = Except.ok w) :
    parseFields lookup pf ((f, v) :: rest) =
      ((f, w) :: (parseFields lookup pf rest).1, (parseFields lookup pf rest).2) := by
  simp only [parseFields, h]

theorem parseFields_cons_err (lookup : String → String)
    (pf : String → Except NumError Nat) (f : FieldDesc) (v : GoValue)
    (e : GoError) (rest : List (FieldDesc × GoValue))
    (h : processField lookup pf f v = Except.error e) :
    parseFields lookup pf ((f, v) :: rest) = ((f, v) :: rest, some e) := by
  simp only [parseFields, h]

theorem processField_absent (lookup : String → String)
    (pf : String → Except NumError Nat) (f : FieldDesc) (v : GoValue)
    (key : String) (htag : f.tag = some key) (h0 : lookup key = "") :
    processField lookup pf f v = Except.ok v := by
  simp only [processField, htag]
  rw [if_pos h0]

theorem processField_present (lookup : String → String)
    (pf : String → Except NumError Nat) (f : FieldDesc) (v : GoValue)
    (key : String) (htag : f.tag = some key) (h0 : lookup key ≠ "")
    (hset : f.canSet = true) :
    processField lookup pf f v = convertField pf key f.name v (lookup key) := by
  simp only [processField, htag]
  rw [if_neg h0, if_neg (by simp [hset])]

theorem parseFields_append (lookup : String → String)
    (pf : String → Except NumError Nat) (pre : List (FieldDesc × GoValue)) :
    ∀ rest : List (FieldDesc × GoValue), (parseFields lookup pf pre).2 = none →
      parseFields lookup pf (pre ++ rest) =
        ((parseFields lookup pf pre).1 ++ (parseFields lookup pf rest).1,
          (parseFields lookup pf rest).2) := by
  induction pre with
  | nil => intro rest _; simp [parseFields]
  | cons fv pre ih =>
    obtain ⟨f, v⟩ := fv
    intro rest h
    cases hp : processField lookup pf f v with
    | ok w =>
      rw [parseFields_cons_ok lookup pf f v w pre hp] at h
      rw [List.cons_append, parseFields_cons_ok lookup pf f v w (pre ++ rest) hp,
        parseFields_cons_ok lookup pf f v w pre hp]
      rw [ih rest h]
      simp
    | error e =>
      rw [parseFields_cons_err lookup pf f v e pre hp] at h
      exact absurd h (by simp)

theorem parseConfig_struct (fields : List (FieldDesc × GoValue))
    (lookup : String → String) (pf : String → Except NumError Nat) :
    parseConfig true true fields lookup pf = parseFields lookup pf fields := by
  simp [parseConfig]

/-- C7: when the destination is not a pointer to a struct, parseConfig
returns the destination shape error immediately and no field of the
destination is read or written: the field list is returned exactly as it
was passed in. -/
theorem parseConfig_shape_error (isPtr elemIsStruct : Bool)
    (fields : List (FieldDesc × GoValue)) (lookup : String → String)
    (pf : String → Except NumError Nat)
    (h : isPtr = false ∨ elemIsStruct = false) :
    parseConfig isPtr elemIsStruct fields lookup pf =
      (fields, some GoError.notStructPtr) := by
  simp only [parseConfig]
  rw [if_pos h]

theorem parseConfig_shape_error_witness :
    parseConfig true false configFields (fun _ => "")
        (fun _ => Except.error NumError.invalidSyntax) =
      (configFields, some GoError.notStructPtr) :=
  parseConfig_shape_error true false configFields (fun _ => "")
    (fun _ => Except.error NumError.invalidSyntax) (Or.inr rfl)

/-- C2: for every declared field of any supported kind, a present and
validly formatted looked up value overwrites the prior value of the field
with the converted value while the remaining fields are processed as
usual, and an absent or empty looked up value leaves the field at its
prior value and contributes no error, the outcome being exactly the
outcome of processing the remaining fields. -/
theorem parseConfig_present_overwrites_absent_keeps
    (lookup : String → String) (pf : String → Except NumError Nat)
    (f : FieldDesc) (v : GoValue) (rest : List (FieldDesc × GoValue)) (key : String)
    (htag : f.tag = some key) :
    (lookup key = "" →
      parseConfig true true ((f, v) :: rest) lookup pf =
        ((f, v) :: (parseFields lookup pf rest).1, (parseFields lookup pf rest).2))
    ∧ (lookup key ≠ "" → f.canSet = true →
        ((∀ a, v = GoValue.str a →
            parseConfig true true ((f, v) :: rest) lookup pf =
              ((f, GoValue.str (lookup key)) :: (parseFields lookup pf rest).1,
                (parseFields lookup pf rest).2))
        ∧ (∀ a n, v = GoValue.int a → goAtoi (lookup key) = Except.ok n →
            parseConfig true true ((f, v) :: rest) lookup pf =
              ((f, GoValue.int n) :: (parseFields lookup pf rest).1,
                (parseFields lookup pf rest).2))
        ∧ (∀ a b, v = GoValue.bool a → goParseBool (lookup key) = Except.ok b →
            parseConfig true true ((f, v) :: rest) lookup pf =
              ((f, GoValue.bool b) :: (parseFields lookup pf rest).1,
                (parseFields lookup pf rest).2))
        ∧ (∀ a n, v = GoValue.float a → pf (lookup key) = Except.ok n →
            parseConfig true true ((f, v) :: rest) lookup pf =
              ((f, GoValue.float n) :: (parseFields lookup pf rest).1,
                (parseFields lookup pf rest).2)))) := by
  constructor
  · intro h0
    rw [parseConfig_struct,
      parseFields_cons_ok lookup pf f v v rest (processField_absent lookup pf f v key htag h0)]
  · intro h0 hset
    refine ⟨?_, ?_, ?_, ?_⟩
    · intro a hv0
      subst hv0
      rw [parseConfig_struct, parseFields_cons_ok lookup pf f _ _ rest ?hstr]
      case hstr =>
        rw [processField_present lookup pf f _ key htag h0 hset]
        simp [convertField]
    · intro a n hv0 hn
      subst hv0
      rw [parseConfig_struct, parseFields_cons_ok lookup pf f _ _ rest ?hint]
      case hint =>
        rw [processField_present lookup pf f _ key htag h0 hset]
        simp only [convertField, hn]
    · intro a b hv0 hb
      subst hv0
      rw [parseConfig_struct, parseFields_cons_ok lookup pf f _ _ rest ?hbool]
      case hbool =>
        rw [processField_present lookup pf f _ key htag h0 hset]
        simp only [convertField, hb]
    · intro a n hv0 hf
      subst hv0
      rw [parseConfig_struct, parseFields_cons_ok lookup pf f _ _ rest ?hflt]
      case hflt =>
        rw [processField_present lookup pf f _ key htag h0 hset]
        simp only [convertField, hf]

theorem parseConfig_present_overwrites_absent_keeps_witness :
    parseConfig true true
        [(FieldDesc.mk "MongoDBPort" (some "MONGO_PORT") true, GoValue.int 0)]
        (fun k => if k = "MONGO_PORT" then "27017" else "")
        (fun _ => Except.error NumError.invalidSyntax) =
      ([(FieldDesc.mk "MongoDBPort" (some "MONGO_PORT") true, GoValue.int 27017)],
        none) := by
  have h := ((parseConfig_present_overwrites_absent_keeps
      (fun k => if k = "MONGO_PORT" then "27017" else "")
      (fun _ => Except.error NumError.invalidSyntax)
      (FieldDesc.mk "MongoDBPort" (some "MONGO_PORT") true) (GoValue.int 0) []
      "MONGO_PORT" rfl).2 (by decide) rfl).2.1 0 27017 rfl (by decide)
  simpa [parseFields] using h

/-- C3: when the present value of some field fails conversion to the
declared kind of the field, parseConfig returns a conversion error that
names the lookup key of the field and carries the underlying parse
failure, the fields after it in declaration order are left unprocessed at
their prior values, and the partially populated field list, with the
earlier fields already assigned, is returned alongside the error. -/
theorem parseConfig_conversion_error_aborts
    (lookup : String → String) (pf : String → Except NumError Nat)
    (pre post : List (FieldDesc × GoValue)) (f : FieldDesc) (v : GoValue)
    (key : String) (e : GoError)
    (hpre : (parseFields lookup pf pre).2 = none)
    (htag : f.tag = some key)
    (hne : lookup key ≠ "")
    (hset : f.canSet = true)
    (hsupp : GoValue.isSupported v = true)
    (hconv : convertField pf key f.name v (lookup key) = Except.error e) :
    parseConfig true true (pre ++ (f, v) :: post) lookup pf =
        ((parseFields lookup pf pre).1 ++ (f, v) :: post, some e)
      ∧ GoError.keyOf e = some key
      ∧ (GoError.causeOf e).isSome = true := by
  have hp : processField lookup pf f v = Except.error e := by
    rw [processField_present lookup pf f v key htag hne hset]
    exact hconv
  have hkc : GoError.keyOf e = some key ∧ (GoError.causeOf e).isSome = true := by
    cases v with
    | str s => simp [convertField] at hconv
    | other kn => simp [GoValue.isSupported] at hsupp
    | int n =>
      cases hg : goAtoi (lookup key) with
      | ok m => simp [convertField, hg] at hconv
      | error c =>
        simp only [convertField, hg] at hconv
        cases Except.error.inj hconv
        exact ⟨rfl, rfl⟩
    | bool b =>
      cases hg : goParseBool (lookup key) with
      | ok m => simp [convertField, hg] at hconv
      | error c =>
        simp only [convertField, hg] at hconv
        cases Except.error.inj hconv
        exact ⟨rfl, rfl⟩
    | float bits =>
      cases hg : pf (lookup key) with
      | ok m => simp [convertField, hg] at hconv
      | error c =>
        simp only [convertField, hg] at hconv
        cases Except.error.inj hconv
        exact ⟨rfl, rfl⟩
  refine ⟨?_, hkc.1, hkc.2⟩
  rw [parseConfig_struct, parseFields_append lookup pf pre ((f, v) :: post) hpre,
    parseFields_cons_err lookup pf f v e post hp]

theorem parseConfig_conversion_error_aborts_witness :
    parseConfig true true configFields
        (fun k => if k = "MONGO_HOST" then "db"
          else if k = "MONGO_PORT" then "abc" else "")
        (fun _ => Except.error NumError.invalidSyntax) =
      ([(FieldDesc.mk "MongoDBHost" (some "MONGO_HOST") true, GoValue.str "db"),
        (FieldDesc.mk "MongoDBPort" (some "MONGO_PORT") true, GoValue.int 0),
        (FieldDesc.mk "MongoDBUser" (some "MONGO_USER") true, GoValue.str ""),
        (FieldDesc.mk "MongoDBPassword" (some "MONGO_PASSWORD") true, GoValue.str ""),
        (FieldDesc.mk "DebugMode" (some "DEBUG_MODE") true, GoValue.bool false)],
       some (GoError.invalidInt "MONGO_PORT" NumError.invalidSyntax)) := by
  have h := (parseConfig_conversion_error_aborts
      (fun k => if k = "MONGO_HOST" then "db"
        else if k = "MONGO_PORT" then "abc" else "")
      (fun _ => Except.error NumError.invalidSyntax)
      [(FieldDesc.mk "MongoDBHost" (some "MONGO_HOST") true, GoValue.str "")]
      [(FieldDesc.mk "MongoDBUser" (some "MONGO_USER") true, GoValue.str ""),
       (FieldDesc.mk "MongoDBPassword" (some "MONGO_PASSWORD") true, GoValue.str ""),
       (FieldDesc.mk "DebugMode" (some "DEBUG_MODE") true, GoValue.bool false)]
      (FieldDesc.mk "MongoDBPort" (some "MONGO_PORT") true) (GoValue.int 0)
      "MONGO_PORT" (GoError.invalidInt "MONGO_PORT" NumError.invalidSyntax)
      (by decide) rfl (by decide) rfl rfl (by decide)).1
  have e0 : configFields =
      [(FieldDesc.mk "MongoDBHost" (some "MONGO_HOST") true, GoValue.str "")] ++
        (FieldDesc.mk "MongoDBPort" (some "MONGO_PORT") true, GoValue.int 0) ::
        [(FieldDesc.mk "MongoDBUser" (some "MONGO_USER") true, GoValue.str ""),
         (FieldDesc.mk "MongoDBPassword" (some "MONGO_PASSWORD") true, GoValue.str ""),
         (FieldDesc.mk "DebugMode" (some "DEBUG_MODE") true, GoValue.bool false)] := rfl
  rw [e0, h]
  decide

/-- C4 counterexample: the claim reads the accepted boolean literal set as
compared case insensitively, but strconv.ParseBool matches its literals
exactly: the value tRUE is equal to the literal true under ASCII case
folding, yet conversion fails with a syntax error instead of producing the
boolean true. -/
theorem goParseBool_not_case_insensitive :
    asciiLower "tRUE" = asciiLower "true" ∧
      goParseBool "tRUE" = Except.error NumError.invalidSyntax := by
  constructor
  · decide
  · decide

/-- C4 amended: a present boolean value converts successfully exactly when
it is one of the twelve literals 1, t, T, true, TRUE, True (giving true)
and 0, f, F, false, FALSE, False (giving false); matching is exact, so
only these three casings of the word literals are accepted, and every
other value, including mixed casings such as tRUE, yields a conversion
error. -/
theorem goParseBool_exact_literals (s : String) :
    (goParseBool s = Except.ok true ↔
        (s = "1" ∨ s = "t" ∨ s = "T" ∨ s = "true" ∨ s = "TRUE" ∨ s = "True"))
    ∧ (goParseBool s = Except.ok false ↔
        (s = "0" ∨ s = "f" ∨ s = "F" ∨ s = "false" ∨ s = "FALSE" ∨ s = "False"))
    ∧ (¬(s = "1" ∨ s = "t" ∨ s = "T" ∨ s = "true" ∨ s = "TRUE" ∨ s = "True") →
        ¬(s = "0" ∨ s = "f" ∨ s = "F" ∨ s = "false" ∨ s = "FALSE" ∨ s = "False") →
        goParseBool s = Except.error NumError.invalidSyntax) := by
  by_cases h1 : s = "1" ∨ s = "t" ∨ s = "T" ∨ s = "true" ∨ s = "TRUE" ∨ s = "True"
  · rcases h1 with h | h | h | h | h | h <;> subst h <;> exact ⟨by decide, by decide, by decide⟩
  · by_cases h2 : s = "0" ∨ s = "f" ∨ s = "F" ∨ s = "false" ∨ s = "FALSE" ∨ s = "False"
    · rcases h2 with h | h | h | h | h | h <;> subst h <;> exact ⟨by decide, by decide, by decide⟩
    · have hg : goParseBool s = Except.error NumError.invalidSyntax := by
        unfold goParseBool
        rw [if_neg h1, if_neg h2]
      refine ⟨?_, ?_, fun _ _ => hg⟩
      · rw [hg]
        simp [h1]
      · rw [hg]
        simp [h2]

theorem goParseBool_exact_literals_witness :
    goParseBool "yes" = Except.error NumError.invalidSyntax :=
  (goParseBool_exact_literals "yes").2.2 (by decide) (by decide)

/-- Scenario check from the spec: a file containing MONGO_PORT=27017 with
no externally visible MONGO_PORT seeds the variable, and population then
gives the integer 27017 for the port field. -/
theorem scenario_port_from_file :
    parseConfig true true configFields
        (loadEnvFile (fun _ => "") ["MONGO_PORT=27017"]).1
        (fun _ => Except.error NumError.invalidSyntax) =
      ([(FieldDesc.mk "MongoDBHost" (some "MONGO_HOST") true, GoValue.str ""),
        (FieldDesc.mk "MongoDBPort" (some "MONGO_PORT") true, GoValue.int 27017),
        (FieldDesc.mk "MongoDBUser" (some "MONGO_USER") true, GoValue.str ""),
        (FieldDesc.mk "MongoDBPassword" (some "MONGO_PASSWORD") true, GoValue.str ""),
        (FieldDesc.mk "DebugMode" (some "DEBUG_MODE") true, GoValue.bool false)],
       none) := by decide

/-- Scenario check from the spec: an externally set DEBUG_MODE=false wins
over a file containing DEBUG_MODE=true, and the populated debug field is
the boolean false. -/
theorem scenario_external_debug_wins :
    parseConfig true true configFields
        (loadEnvFile (fun k => if k = "DEBUG_MODE" then "false" else "")
          ["DEBUG_MODE=true"]).1
        (fun _ => Except.error NumError.invalidSyntax) =
      ([(FieldDesc.mk "MongoDBHost" (some "MONGO_HOST") true, GoValue.str ""),
        (FieldDesc.mk "MongoDBPort" (some "MONGO_PORT") true, GoValue.int 0),
        (FieldDesc.mk "MongoDBUser" (some "MONGO_USER") true, GoValue.str ""),
        (FieldDesc.mk "MongoDBPassword" (some "MONGO_PASSWORD") true, GoValue.str ""),
        (FieldDesc.mk "DebugMode" (some "DEBUG_MODE") true, GoValue.bool false)],
       none) := by decide

/-- Scenario check from the spec: with no file and no visible variables
for any declared key, the populated structure equals the zero valued
structure and no error is reported. -/
theorem scenario_zero_config :
    parseConfig true true configFields (fun _ => "")
        (fun _ => Except.error NumError.invalidSyntax) =
      (configFields, none) := by decide
